import Mathlib

/-!
Verification development for the per-connection protocol engine of the wave
server (source file src/client.go).  Go maps are modelled as association
lists over String keys with lookup, overwrite and delete operations that
agree pointwise with map semantics; the websocket transport, the Broker
registry and the auth provider are modelled at their interface boundary:
their observable answers (bound application, page, header-cache entry,
touch outcome) are inputs of the embedded dispatch functions, exactly as
the code consumes them.
-/

set_option autoImplicit false

/-- Lookup in an association list, modelling Go map indexing m[k]. -/
def alookup {α : Type} : List (String × α) → String → Option α
  | [], _ => none
  | p :: t, k => if p.1 = k then some p.2 else alookup t k

/-- Delete a key, modelling the Go builtin delete(m, k). -/
def aerase {α : Type} : List (String × α) → String → List (String × α)
  | [], _ => []
  | p :: t, k => if p.1 = k then aerase t k else p :: aerase t k

/-- Overwrite a key with a value, modelling the Go map assignment m[k] = v. -/
def aset {α : Type} (m : List (String × α)) (k : String) (v : α) : List (String × α) :=
  (k, v) :: aerase m k

/-- A Go map from string to string (map[string]string). -/
abbrev StrMap := List (String × String)

/-- A Go http.Header: a map from header name to the list of values. -/
abbrev Header := List (String × List String)

/-- The keys of an association list are pairwise distinct, as in a Go map. -/
def keysNodup {α : Type} (m : List (String × α)) : Prop :=
  (m.map Prod.fst).Nodup

instance {α : Type} (m : List (String × α)) : Decidable (keysNodup m) := by
  unfold keysNodup; infer_instance

/-- Join multiple header values with a comma: strings.Join(v, ",") in the source. -/
def joinC (vs : List String) : String := String.intercalate "," vs

/-- Write every entry of the header h into the accumulator map, joining the
values with a comma: one of the two range loops of mergeHeaders in src/client.go. -/
def applyHeader (m : StrMap) (h : Header) : StrMap :=
  h.foldl (fun acc kv => aset acc kv.1 (joinC kv.2)) m

/-- Embedding of mergeHeaders(headersMap, h1, h2) from src/client.go: first all
entries of h2 are written into the map, then all entries of h1, so on a key
collision the value coming from h1 wins (the source comment reads: merge two
http.Headers, preferring the first one).  The nil checks of the source are
identities here because a nil Go map ranges over nothing. -/
def mergeHeaders (headersMap : StrMap) (h1 h2 : Header) : StrMap :=
  applyHeader (applyHeader headersMap h2) h1

/-- Delivery mode of an application bound to a route (unicastMode and
multicastMode of the app registry, specified at the Broker interface
boundary in the spec, section 6). -/
inductive AppMode
  | unicast
  | multicast
deriving DecidableEq, Repr

/-- An application as the engine observes it: only its delivery mode. -/
structure App where
  mode : AppMode
deriving DecidableEq, Repr

/-- A page as the engine observes it: the result of page.marshal, which is
nil (none) when serialization yields nothing. -/
structure Page where
  marshal : Option String
deriving DecidableEq, Repr

/-- An end-user session as read by the engine: username and subject. -/
structure Session where
  username : String
  subject : String
deriving DecidableEq, Repr

/-- The connection engine state that watch, query and patch dispatch reads
(fields of struct Client in src/client.go).  The auth pointer is reduced to
its nil test, the session pointer is an Option. -/
structure Client where
  id : String
  hasAuth : Bool
  session : Option Session
  editable : Bool
  baseURL : String
  header : Header
deriving DecidableEq, Repr

/-- The Broker and its site registry at the interface the engine calls:
getApp, site.at and site.clientIDToHeaders. -/
structure Site where
  pageAt : String → Option Page
  clientIDToHeaders : List (String × Header)

/-- Broker handle: route to bound application, plus the site registry. -/
structure Broker where
  getApp : String → Option App
  site : Site

/-- Message kinds of the wire protocol (patchMsgT, queryMsgT, watchMsgT). -/
inductive MsgType
  | patchMsgT
  | queryMsgT
  | watchMsgT
deriving DecidableEq, Repr

/-- A JSON value, the parse of a payload.  Numbers keep their lexeme since
the engine never reads them numerically. -/
inductive JVal
  | null
  | jbool (b : Bool)
  | num (lexeme : String)
  | str (s : String)
  | arr (elems : List JVal)
  | obj (fields : List (String × JVal))

/-- A decoded inbound message after parseMsg and resolveURL: kind, resolved
address, raw payload bytes, and the payload parsed as JSON (none when the
bytes are not syntactically valid JSON).  Only the query branch consumes the
parsed form, mirroring json.Unmarshal on m.data. -/
structure Msg where
  t : MsgType
  addr : String
  data : String
  jdata : Option JVal

/-- One JSON value decoded into a Go string slot, as encoding/json stores
map elements: a JSON string yields itself, any other value leaves the zero
value of the slot, the empty string. -/
def decodeStrVal : JVal → String
  | JVal.str s => s
  | _ => ""

/-- True when decoding one JSON value into a string slot raises no error in
encoding/json: strings decode, null is ignored silently, everything else
records an UnmarshalTypeError. -/
def strValOk : JVal → Bool
  | JVal.str _ => true
  | JVal.null => true
  | _ => false

/-- The map produced by the Go call json.Unmarshal(data, &m) for m of type
map[string]string, with the returned error discarded as the source does.
Unmarshal first validates the syntax, so invalid JSON (none) leaves the map
empty; a top level value that is not an object leaves it empty as well; for
an object every field is stored, a field whose value is not a JSON string
getting the zero value empty string. -/
def goUnmarshalStrMap : Option JVal → StrMap
  | some (JVal.obj fs) => fs.foldl (fun m kv => aset m kv.1 (decodeStrVal kv.2)) []
  | _ => []

/-- True when the same json.Unmarshal call reports an error: invalid JSON, a
top level value other than an object or null, or an object with a field
value that is neither a string nor null. -/
def goUnmarshalFails : Option JVal → Bool
  | none => true
  | some (JVal.obj fs) => !(fs.all (fun kv => strValOk kv.2))
  | some JVal.null => false
  | some _ => true

/-- Outbound frames the engine enqueues for the client during dispatch. -/
inductive OutFrame
  | meta (username : String) (editor : Bool)
  | pageData (d : String)
  | notFound
  | logout (u : String)
deriving DecidableEq, Repr

/-- Wire shape of an outbound frame.  Modelled from the spec: the OpsD and
Meta structs live outside src/, the spec gives their marshaled shapes in
section 6. -/
def renderFrame : OutFrame → String
  | OutFrame.meta u e =>
      "\x7b\"m\":\x7b\"username\":\"" ++ u ++ "\",\"editor\":" ++
        (if e then "true" else "false") ++ "\x7d\x7d"
  | OutFrame.pageData d => d
  | OutFrame.notFound => "\x7b\"e\":\"not_found\"\x7d"
  | OutFrame.logout u => "\x7b\"u\":\"" ++ u ++ "\"\x7d"

/-- A forward body handed to app.forward: the connection id and session the
engine passes along, and the marshaled body fields args and headers (the
body is a map of maps whose marshaling cannot fail). -/
structure Forward where
  clientID : String
  session : Option Session
  args : StrMap
  headers : Option StrMap
deriving DecidableEq, Repr

/-- Observable effects of handling one inbound message: routes subscribed in
order, frames enqueued for the client in order, forwards handed to the bound
application, patches sent to the Broker, and the header cache afterwards. -/
structure DispatchOut where
  subs : List String
  sends : List OutFrame
  forwards : List Forward
  patches : List (String × String)
  cache : List (String × Header)
deriving DecidableEq, Repr

/-- Boot payload decode for a watch: json.Marshal(Boot\x7bHash\x7d) followed by
json.Unmarshal into map[string]string round-trips to a singleton map on the
key hash sign when the payload is nonempty, and emptyJSON decodes to the
empty map. -/
def wArgs (data : String) : StrMap :=
  if data.length > 0 then [("#", data)] else []

/-- The app-bound arm of the watch case in Client.listen, after the scoped
subscription has been chosen: build the boot args, attach merged headers if
the Broker header cache holds an entry for this connection id (deleting the
entry), and forward the body to the application. -/
def watchApp (c : Client) (b : Broker) (addr : String) (data : String)
    (scopedRoute : String) : DispatchOut :=
  let args := wArgs data
  match alookup b.site.clientIDToHeaders c.id with
  | some cached =>
      { subs := [addr, scopedRoute]
        sends := []
        forwards := [⟨c.id, c.session, args, some (mergeHeaders [] cached c.header)⟩]
        patches := []
        cache := aerase b.site.clientIDToHeaders c.id }
  | none =>
      { subs := [addr, scopedRoute]
        sends := []
        forwards := [⟨c.id, c.session, args, none⟩]
        patches := []
        cache := b.site.clientIDToHeaders }

/-- The watch case of Client.listen.  The route is subscribed first in every
arm.  A none result models a Go nil pointer dereference panic: the source
reads c.session.subject in the multicast arm and c.session.username in the
no-app arm without a nil guard. -/
def handleWatch (c : Client) (b : Broker) (addr : String) (data : String) :
    Option DispatchOut :=
  match b.getApp addr with
  | some app =>
      match app.mode, c.session with
      | AppMode.multicast, none => none
      | AppMode.multicast, some s => some (watchApp c b addr data ("/" ++ s.subject))
      | AppMode.unicast, _ => some (watchApp c b addr data ("/" ++ c.id))
  | none =>
      match c.session with
      | none => none
      | some s =>
          let base : DispatchOut :=
            { subs := [addr]
              sends := [OutFrame.meta s.username c.editable]
              forwards := []
              patches := []
              cache := b.site.clientIDToHeaders }
          match b.site.pageAt addr with
          | some p =>
              match p.marshal with
              | some d => some { base with sends := base.sends ++ [OutFrame.pageData d] }
              | none => some { base with sends := base.sends ++ [OutFrame.notFound] }
          | none => some { base with sends := base.sends ++ [OutFrame.notFound] }

/-- The query case of Client.listen: a missing application is a logged soft
miss; otherwise the payload is unmarshaled into the args map with the error
ignored, wrapped as the args field, and forwarded. -/
def handleQuery (c : Client) (b : Broker) (addr : String) (jd : Option JVal) :
    DispatchOut :=
  match b.getApp addr with
  | none =>
      { subs := [], sends := [], forwards := [], patches := []
        cache := b.site.clientIDToHeaders }
  | some _ =>
      { subs := [], sends := []
        forwards := [⟨c.id, c.session, goUnmarshalStrMap jd, none⟩]
        patches := []
        cache := b.site.clientIDToHeaders }

/-- Dispatch of one decoded message by kind, the switch of Client.listen. -/
def dispatchMsg (c : Client) (b : Broker) (m : Msg) : Option DispatchOut :=
  match m.t with
  | MsgType.patchMsgT =>
      some { subs := [], sends := [], forwards := []
             patches := if c.editable then [(m.addr, m.data)] else []
             cache := b.site.clientIDToHeaders }
  | MsgType.queryMsgT => some (handleQuery c b m.addr m.jdata)
  | MsgType.watchMsgT => handleWatch c b m.addr m.data

/-- One whole iteration of the read loop of Client.listen after a frame has
been read: the token refresh is output-invisible (failure only logs), then
if a session and an auth provider are present the session is touched with
the configured inactivity timeout; on expiry a logout directive is enqueued
and the message is neither decoded nor dispatched.  The touch outcome is the
Boolean input touchExpired, as the claim conditions on it. -/
def listenIteration (c : Client) (b : Broker) (touchExpired : Bool) (m : Msg) :
    Option DispatchOut :=
  if c.session.isSome && c.hasAuth then
    if touchExpired then
      some { subs := [], sends := [OutFrame.logout (c.baseURL ++ "_auth/logout")]
             forwards := [], patches := [], cache := b.site.clientIDToHeaders }
    else dispatchMsg c b m
  else dispatchMsg c b m

/-- Capacity of the outbound queue: make(chan []byte, 256) in newClient. -/
def queueCap : Nat := 256

/-- Client.send: a nonblocking enqueue onto the bounded outbound queue via
select with a default arm; a full queue drops the message and returns false. -/
def sendQ (q : List String) (d : String) : List String × Bool :=
  if q.length < queueCap then (q ++ [d], true) else (q, false)

/-- Run a sequence of send calls, returning the final queue and the list of
per-call results in order. -/
def sendRun : List String → List String → List String × List Bool
  | q, [] => (q, [])
  | q, d :: ds =>
      let r := sendQ q d
      let rest := sendRun r.1 ds
      (rest.1, r.2 :: rest.2)

/-- The frame body built by one wake of the write loop of Client.flush: the
received message, then each already-queued message appended after a newline
write. -/
def flushFrame (d : String) (rest : List String) : String :=
  rest.foldl (fun acc m => acc ++ "\n" ++ m) d

/-- One wake of the write loop on a nonempty queue: it receives the head,
drains the n messages counted on the queue into the same frame, and finishes
the frame, leaving the queue empty; a single transport write results. -/
def flushWake : List String → Option (List String × List String)
  | [] => none
  | d :: rest => some ([flushFrame d rest], [])

/-- Newline join of a batch of payloads, the shape the spec gives for a
coalesced frame. -/
def joinNL : List String → String
  | [] => ""
  | [d] => d
  | d :: rest => d ++ "\n" ++ joinNL rest

/-- The scoped sub-route subscribed in addition to the watched route: the
connection id for a unicast application, the session subject for multicast. -/
def scopeRoute (c : Client) (s : Session) : AppMode → String
  | AppMode.unicast => "/" ++ c.id
  | AppMode.multicast => "/" ++ s.subject

/-- True when the payload parses as a JSON object. -/
def isObjPayload : Option JVal → Bool
  | some (JVal.obj _) => true
  | _ => false

/-- Modelled from the spec: the merge the spec sentence describes, in which
the connection own captured headers take precedence over the Broker cached
ones on key collision: write the cached headers first, then overwrite with
the own headers.  Stated only for comparison with the merge the code
performs. -/
def specMergeOwnWins (own cached : Header) : StrMap :=
  applyHeader (applyHeader [] cached) own

/-- Fixture session. -/
def sSession : Session := ⟨"alice", "subj"⟩

/-- Fixture unicast application. -/
def sApp : App := ⟨AppMode.unicast⟩

/-- Fixture multicast application. -/
def mApp : App := ⟨AppMode.multicast⟩

/-- Fixture own captured request headers of the connection. -/
def ownHdr : Header := [("A", ["1"])]

/-- Fixture Broker-cached headers for the connection id. -/
def cachedHdr : Header := [("A", ["2"]), ("B", ["3"])]

/-- Fixture client with session, auth and editing enabled. -/
def cFix : Client := ⟨"cid", true, some sSession, true, "http://h/", ownHdr⟩

/-- Fixture client whose session pointer is nil. -/
def cNil : Client := ⟨"cid", false, none, true, "http://h/", ownHdr⟩

/-- Fixture Broker binding a unicast app at /app, with a header-cache entry
for the fixture connection id. -/
def bApp : Broker :=
  ⟨fun a => if a = "/app" then some sApp else none, ⟨fun _ => none, [("cid", cachedHdr)]⟩⟩

/-- Fixture Broker binding a multicast app at /app, empty header cache. -/
def bMulti : Broker :=
  ⟨fun a => if a = "/app" then some mApp else none, ⟨fun _ => none, []⟩⟩

/-- Fixture Broker with no applications and no pages. -/
def bNone : Broker := ⟨fun _ => none, ⟨fun _ => none, []⟩⟩

/-- The headers field attached to the body forwarded by the fixture watch:
the single forward produced by watching /app on the fixture Broker. -/
def attachedHdrs : Option StrMap :=
  match handleWatch cFix bApp "/app" "" with
  | some o =>
      match o.forwards with
      | [f] => f.headers
      | _ => none
  | none => none

/-- Fixture query payload: the JSON object with field a bound to number 1,
which json.Unmarshal rejects for map[string]string. -/
def jBad : Option JVal := some (JVal.obj [("a", JVal.num "1")])

/-- Fixture inbound message for the read-loop iteration claims. -/
def mFix : Msg := ⟨MsgType.watchMsgT, "/app", "", none⟩
@[simp] theorem alookup_nil {α : Type} (k : String) : alookup ([] : List (String × α)) k = none := rfl

theorem alookup_cons {α : Type} (p : String × α) (t : List (String × α)) (k : String) :
    alookup (p :: t) k = if p.1 = k then some p.2 else alookup t k := rfl

theorem alookup_aerase_self {α : Type} (m : List (String × α)) (k : String) :
    alookup (aerase m k) k = none := by
  induction m with
  | nil => rfl
  | cons p t ih =>
    by_cases h : p.1 = k
    · simp [aerase, h, ih]
    · simp [aerase, h, alookup, ih]

theorem alookup_aerase_ne {α : Type} (m : List (String × α)) (k k' : String) (h : k' ≠ k) :
    alookup (aerase m k) k' = alookup m k' := by
  induction m with
  | nil => rfl
  | cons p t ih =>
    by_cases hp : p.1 = k
    · have hk : k ≠ k' := Ne.symm h
      simp [aerase, hp, alookup, hk, ih]
    · simp [aerase, hp, alookup, ih]

theorem alookup_aset_self {α : Type} (m : List (String × α)) (k : String) (v : α) :
    alookup (aset m k v) k = some v := by
  simp [aset, alookup]

theorem alookup_aset_ne {α : Type} (m : List (String × α)) (k k' : String) (v : α) (h : k' ≠ k) :
    alookup (aset m k v) k' = alookup m k' := by
  have hk : k ≠ k' := fun e => h e.symm
  simp [aset, alookup, hk]
  exact alookup_aerase_ne m k k' h

theorem alookup_eq_none_of_not_mem {α : Type} (m : List (String × α)) (k : String)
    (h : k ∉ m.map Prod.fst) : alookup m k = none := by
  induction m with
  | nil => rfl
  | cons p t ih =>
    simp only [List.map_cons, List.mem_cons] at h
    push_neg at h
    have h1 : p.1 ≠ k := fun e => h.1 e.symm
    simp [alookup, h1, ih h.2]

/-- Lookup after writing one header into the accumulator: the value of the
header wins over the accumulator, entries absent from the header fall back. -/
theorem alookup_applyHeader (h : Header) (m : StrMap) (k : String) (hn : keysNodup h) :
    alookup (applyHeader m h) k =
      (match alookup h k with
       | some vs => some (joinC vs)
       | none => alookup m k) := by
  induction h generalizing m with
  | nil => rfl
  | cons p t ih =>
    have hn' : keysNodup t := by
      unfold keysNodup at hn ⊢
      simpa using (List.nodup_cons.mp (by simpa using hn)).2
    have hmem : p.1 ∉ t.map Prod.fst := by
      unfold keysNodup at hn
      exact (List.nodup_cons.mp (by simpa using hn)).1
    show alookup (applyHeader (aset m p.1 (joinC p.2)) t) k = _
    rw [ih _ hn']
    by_cases hk : p.1 = k
    · subst hk
      rw [alookup_eq_none_of_not_mem t p.1 hmem]
      simp [alookup_cons, alookup_aset_self]
    · have hk' : k ≠ p.1 := fun e => hk e.symm
      simp only [alookup_cons, if_neg hk]
      cases ht : alookup t k with
      | some vs => simp
      | none => simp [alookup_aset_ne m p.1 k _ hk']


theorem strAppend_assoc : ∀ (a b c : String), a ++ b ++ c = a ++ (b ++ c)
  | ⟨a⟩, ⟨b⟩, ⟨c⟩ => congrArg String.mk (List.append_assoc a b c)

/-- The frame built by draining the queue equals the newline join of the
payloads in enqueue order. -/
theorem flushFrame_eq_joinNL (d : String) (rest : List String) :
    flushFrame d rest = joinNL (d :: rest) := by
  induction rest generalizing d with
  | nil => rfl
  | cons m t ih =>
    show flushFrame (d ++ "\n" ++ m) t = _
    rw [ih]
    cases t with
    | nil => rfl
    | cons x xs => simp [joinNL, strAppend_assoc]

/-- With a session present and an application bound, the watch case runs the
app arm with the mode-scoped sub-route. -/
theorem handleWatch_app (c : Client) (b : Broker) (addr d : String) (s : Session) (app : App)
    (hs : c.session = some s) (ha : b.getApp addr = some app) :
    handleWatch c b addr d = some (watchApp c b addr d (scopeRoute c s app.mode)) := by
  obtain ⟨mode⟩ := app
  unfold handleWatch
  rw [ha, hs]
  cases mode <;> rfl

/-- The app arm on a header-cache hit: merged headers attached, entry deleted. -/
theorem watchApp_hit (c : Client) (b : Broker) (addr d sc : String) (hd : Header)
    (hc : alookup b.site.clientIDToHeaders c.id = some hd) :
    watchApp c b addr d sc =
      { subs := [addr, sc], sends := []
        forwards := [⟨c.id, c.session, wArgs d, some (mergeHeaders [] hd c.header)⟩]
        patches := [], cache := aerase b.site.clientIDToHeaders c.id } := by
  unfold watchApp
  rw [hc]

/-- The app arm on a header-cache miss: no headers attached, cache unchanged. -/
theorem watchApp_miss (c : Client) (b : Broker) (addr d sc : String)
    (hc : alookup b.site.clientIDToHeaders c.id = none) :
    watchApp c b addr d sc =
      { subs := [addr, sc], sends := []
        forwards := [⟨c.id, c.session, wArgs d, none⟩]
        patches := [], cache := b.site.clientIDToHeaders } := by
  unfold watchApp
  rw [hc]

/-- C7: mergeHeaders is a pure function of its two header maps; every
multi-valued header collapses to a single comma-joined string; the result is
the union of both maps in which the first header argument (the own headers
in the spec reading) overwrites the second (the cached ones) on key
collision; concretely merging own A:1 with cached A:2, B:3 yields A:1, B:3. -/
theorem wave_C7_theorem (h1 h2 : Header) (k : String) (vs : List String)
    (n1 : keysNodup h1) (n2 : keysNodup h2) :
    ((alookup h1 k = some vs → alookup (mergeHeaders [] h1 h2) k = some (joinC vs)) ∧
     (alookup h1 k = none → alookup (mergeHeaders [] h1 h2) k = (alookup h2 k).map joinC)) ∧
    mergeHeaders [] [("A", ["1"])] [("A", ["2"]), ("B", ["3"])] = [("A", "1"), ("B", "3")] ∧
    alookup (mergeHeaders [] [("X", ["1", "2"])] []) "X" = some "1,2" := by
  refine ⟨⟨?_, ?_⟩, by decide, by decide⟩
  · intro hv
    show alookup (applyHeader (applyHeader [] h2) h1) k = _
    rw [alookup_applyHeader h1 _ k n1, hv]
  · intro hv
    show alookup (applyHeader (applyHeader [] h2) h1) k = _
    rw [alookup_applyHeader h1 _ k n1, hv, alookup_applyHeader h2 _ k n2]
    cases alookup h2 k <;> rfl

theorem wave_C7_witness :
    alookup (mergeHeaders [] [("A", ["1"])] [("A", ["2"]), ("B", ["3"])]) "A" =
      some (joinC ["1"]) :=
  (wave_C7_theorem [("A", ["1"])] [("A", ["2"]), ("B", ["3"])] "A" ["1"]
    (by decide) (by decide)).1.1 rfl

/-- C5: send is a nonblocking bounded enqueue on the 256-capacity queue:
below capacity the message is appended and true returned, at capacity the
queue is unchanged and false returned; 300 sends against an empty undrained
queue yield exactly 256 accepted and 44 dropped. -/
theorem wave_C5_theorem :
    (∀ (q : List String) (d : String), q.length < queueCap → sendQ q d = (q ++ [d], true)) ∧
    (∀ (q : List String) (d : String), ¬ q.length < queueCap → sendQ q d = (q, false)) ∧
    (sendRun [] (List.replicate 300 "m")).2.count true = 256 ∧
    (sendRun [] (List.replicate 300 "m")).2.count false = 44 ∧
    (sendRun [] (List.replicate 300 "m")).2.length = 300 ∧
    (sendRun [] (List.replicate 300 "m")).1.length = 256 := by
  refine ⟨fun q d h => by simp [sendQ, h], fun q d h => by simp [sendQ, h], ?_, ?_, ?_, ?_⟩
  all_goals set_option maxRecDepth 4000 in decide

theorem wave_C5_witness :
    sendQ [] "d" = (["d"], true) ∧
    sendQ (List.replicate 256 "x") "d" = (List.replicate 256 "x", false) :=
  ⟨wave_C5_theorem.1 [] "d" (by decide),
   wave_C5_theorem.2.1 (List.replicate 256 "x") "d" (by set_option maxRecDepth 2000 in decide)⟩

/-- C6: a wake of the write loop with k messages already enqueued emits one
transport frame holding all k payloads newline-joined in enqueue order and
leaves the queue empty; in particular three queued messages produce the one
frame a, b, c newline-joined. -/
theorem wave_C6_theorem :
    (∀ (d : String) (rest : List String),
        flushWake (d :: rest) = some ([joinNL (d :: rest)], [])) ∧
    flushWake ["a", "b", "c"] = some (["a\nb\nc"], []) := by
  constructor
  · intro d rest
    show some ([flushFrame d rest], []) = _
    rw [flushFrame_eq_joinNL]
  · rfl

/-- C3: a watch whose resolved address has no bound application and no page
still subscribes the route, and enqueues exactly one metadata frame with the
session username and the editable flag followed by exactly one not-found
frame, and nothing else; the not-found frame renders to the fixed JSON body. -/
theorem wave_C3_theorem (c : Client) (b : Broker) (addr d : String) (s : Session)
    (hs : c.session = some s) (ha : b.getApp addr = none) (hp : b.site.pageAt addr = none) :
    handleWatch c b addr d =
      some { subs := [addr]
             sends := [OutFrame.meta s.username c.editable, OutFrame.notFound]
             forwards := [], patches := [], cache := b.site.clientIDToHeaders } ∧
    renderFrame OutFrame.notFound = "\x7b\"e\":\"not_found\"\x7d" := by
  refine ⟨?_, rfl⟩
  unfold handleWatch
  rw [ha, hs, hp]
  rfl

theorem wave_C3_witness :
    handleWatch cFix bNone "/nope" "" =
      some { subs := ["/nope"]
             sends := [OutFrame.meta sSession.username cFix.editable, OutFrame.notFound]
             forwards := [], patches := [], cache := bNone.site.clientIDToHeaders } ∧
    renderFrame OutFrame.notFound = "\x7b\"e\":\"not_found\"\x7d" :=
  wave_C3_theorem cFix bNone "/nope" "" sSession rfl rfl rfl

/-- C4: a watch whose resolved address is bound to an application subscribes
the resolved route and additionally the connection-id sub-route when the app
mode is unicast, and the session-subject sub-route when it is multicast. -/
theorem wave_C4_theorem (c : Client) (b : Broker) (addr d : String) (s : Session) (app : App)
    (hs : c.session = some s) (ha : b.getApp addr = some app) :
    ∃ o, handleWatch c b addr d = some o ∧
      o.subs = [addr, scopeRoute c s app.mode] ∧
      scopeRoute c s AppMode.unicast = "/" ++ c.id ∧
      scopeRoute c s AppMode.multicast = "/" ++ s.subject := by
  refine ⟨_, handleWatch_app c b addr d s app hs ha, ?_, rfl, rfl⟩
  unfold watchApp
  cases alookup b.site.clientIDToHeaders c.id <;> rfl

theorem wave_C4_witness :
    ∃ o, handleWatch cFix bApp "/app" "" = some o ∧
      o.subs = ["/app", scopeRoute cFix sSession sApp.mode] ∧
      scopeRoute cFix sSession AppMode.unicast = "/" ++ cFix.id ∧
      scopeRoute cFix sSession AppMode.multicast = "/" ++ sSession.subject :=
  wave_C4_theorem cFix bApp "/app" "" sSession sApp rfl rfl

/-- C1 counterexample: at an explicit input with cached header A:2 and own
connection header A:1, the headers the code attaches map A to 2 (the cached
value wins) while the merge the claim describes, with the own headers taking
precedence, maps A to 1; the attached map is not the claimed merge. -/
theorem wave_C1_counterexample :
    attachedHdrs = some (mergeHeaders [] cachedHdr ownHdr) ∧
    (match attachedHdrs with | some m => alookup m "A" | none => none) = some "2" ∧
    alookup (specMergeOwnWins ownHdr cachedHdr) "A" = some "1" ∧
    attachedHdrs ≠ some (specMergeOwnWins ownHdr cachedHdr) := by
  refine ⟨rfl, rfl, rfl, ?_⟩
  decide

/-- C1 (amended): for a watch of an app-bound address whose connection id
has a pending header-cache entry, the attached headers are the merge of the
cached entry and the connection own headers in which the CACHED headers take
precedence on key collision (union otherwise), and the cache entry is
deleted afterwards. -/
theorem wave_C1_theorem (c : Client) (b : Broker) (addr d : String) (s : Session)
    (app : App) (hd : Header)
    (hs : c.session = some s) (ha : b.getApp addr = some app)
    (hc : alookup b.site.clientIDToHeaders c.id = some hd)
    (n1 : keysNodup hd) :
    ∃ o, handleWatch c b addr d = some o ∧
      o.forwards = [⟨c.id, c.session, wArgs d, some (mergeHeaders [] hd c.header)⟩] ∧
      o.cache = aerase b.site.clientIDToHeaders c.id ∧
      (∀ k vs, alookup hd k = some vs →
        alookup (mergeHeaders [] hd c.header) k = some (joinC vs)) := by
  refine ⟨_, handleWatch_app c b addr d s app hs ha, ?_, ?_, ?_⟩
  · rw [watchApp_hit c b addr d _ hd hc]
  · rw [watchApp_hit c b addr d _ hd hc]
  · intro k vs hv
    show alookup (applyHeader (applyHeader [] c.header) hd) k = _
    rw [alookup_applyHeader hd _ k n1, hv]

theorem wave_C1_witness :
    ∃ o, handleWatch cFix bApp "/app" "" = some o ∧
      o.forwards = [⟨cFix.id, cFix.session, wArgs "", some (mergeHeaders [] cachedHdr cFix.header)⟩] ∧
      o.cache = aerase bApp.site.clientIDToHeaders cFix.id ∧
      (∀ k vs, alookup cachedHdr k = some vs →
        alookup (mergeHeaders [] cachedHdr cFix.header) k = some (joinC vs)) :=
  wave_C1_theorem cFix bApp "/app" "" sSession sApp cachedHdr rfl rfl rfl (by decide)

/-- C2: cached headers are delivered at most once per connection: a first
watch of an app-bound address that finds a header-cache entry attaches the
merged headers and deletes the entry, and a second watch of the same address
from the same connection id forwards a body carrying no cached headers. -/
theorem wave_C2_theorem (c : Client) (b : Broker) (addr d1 d2 : String) (s : Session)
    (app : App) (hd : Header)
    (hs : c.session = some s) (ha : b.getApp addr = some app)
    (hc : alookup b.site.clientIDToHeaders c.id = some hd) :
    ∃ o1 o2,
      handleWatch c b addr d1 = some o1 ∧
      o1.forwards = [⟨c.id, c.session, wArgs d1, some (mergeHeaders [] hd c.header)⟩] ∧
      o1.cache = aerase b.site.clientIDToHeaders c.id ∧
      handleWatch c ⟨b.getApp, b.site.pageAt, o1.cache⟩ addr d2 = some o2 ∧
      o2.forwards = [⟨c.id, c.session, wArgs d2, none⟩] := by
  have h1 := handleWatch_app c b addr d1 s app hs ha
  rw [watchApp_hit c b addr d1 (scopeRoute c s app.mode) hd hc] at h1
  have h2 := handleWatch_app c
    (Broker.mk b.getApp ⟨b.site.pageAt, aerase b.site.clientIDToHeaders c.id⟩) addr d2 s app hs ha
  rw [watchApp_miss c
    (Broker.mk b.getApp ⟨b.site.pageAt, aerase b.site.clientIDToHeaders c.id⟩) addr d2
    (scopeRoute c s app.mode) (alookup_aerase_self b.site.clientIDToHeaders c.id)] at h2
  exact ⟨_, _, h1, rfl, rfl, h2, rfl⟩

theorem wave_C2_witness :
    ∃ o1 o2,
      handleWatch cFix bApp "/app" "x" = some o1 ∧
      o1.forwards = [⟨cFix.id, cFix.session, wArgs "x", some (mergeHeaders [] cachedHdr cFix.header)⟩] ∧
      o1.cache = aerase bApp.site.clientIDToHeaders cFix.id ∧
      handleWatch cFix ⟨bApp.getApp, bApp.site.pageAt, o1.cache⟩ "/app" "y" = some o2 ∧
      o2.forwards = [⟨cFix.id, cFix.session, wArgs "y", none⟩] :=
  wave_C2_theorem cFix bApp "/app" "x" "y" sSession sApp cachedHdr rfl rfl rfl

/-- C8: when a session and an auth provider are present and the session
touch with the configured inactivity timeout reports expiry, the iteration
enqueues exactly the logout directive built from the base URL and dispatches
nothing: no subscription, no forward, no patch, cache untouched. -/
theorem wave_C8_theorem (c : Client) (b : Broker) (m : Msg) (s : Session)
    (hs : c.session = some s) (hauth : c.hasAuth = true) :
    listenIteration c b true m =
      some { subs := [], sends := [OutFrame.logout (c.baseURL ++ "_auth/logout")]
             forwards := [], patches := [], cache := b.site.clientIDToHeaders } := by
  simp [listenIteration, hs, hauth]

theorem wave_C8_witness :
    listenIteration cFix bApp true mFix =
      some { subs := [], sends := [OutFrame.logout (cFix.baseURL ++ "_auth/logout")]
             forwards := [], patches := [], cache := bApp.site.clientIDToHeaders } :=
  wave_C8_theorem cFix bApp mFix sSession rfl rfl

/-- C9 counterexample: the payload that is the JSON object with field a
bound to the number 1 fails to decode as an object of string fields, yet the
forwarded body args map is not empty: it carries field a bound to the empty
string, the zero value encoding/json stores for a mismatched element. -/
theorem wave_C9_counterexample :
    goUnmarshalFails jBad = true ∧
    handleQuery cFix bApp "/app" jBad =
      { subs := [], sends := []
        forwards := [⟨"cid", some sSession, [("a", "")], none⟩]
        patches := [], cache := bApp.site.clientIDToHeaders } ∧
    [("a", "")] ≠ ([] : StrMap) := by
  refine ⟨rfl, rfl, ?_⟩
  decide

/-- C9 (amended): a query to a bound application is never dropped on a
payload decode failure: the error is ignored and the application receives a
body whose args field is the partial decode json.Unmarshal leaves behind,
which is the empty object whenever the payload is not a JSON object
(malformed JSON included), while a JSON object payload keeps all its keys,
non-string field values decoding to the empty string. -/
theorem wave_C9_theorem (c : Client) (b : Broker) (addr : String) (jd : Option JVal)
    (app : App) (ha : b.getApp addr = some app) :
    handleQuery c b addr jd =
      { subs := [], sends := []
        forwards := [⟨c.id, c.session, goUnmarshalStrMap jd, none⟩]
        patches := [], cache := b.site.clientIDToHeaders } ∧
    (isObjPayload jd = false → goUnmarshalStrMap jd = []) := by
  constructor
  · unfold handleQuery
    rw [ha]
  · intro h
    cases jd with
    | none => rfl
    | some v =>
        cases v with
        | obj fs => simp [isObjPayload] at h
        | null => rfl
        | jbool bb => rfl
        | num lx => rfl
        | str ss => rfl
        | arr es => rfl

theorem wave_C9_witness :
    handleQuery cFix bApp "/app" none =
      { subs := [], sends := []
        forwards := [⟨cFix.id, cFix.session, goUnmarshalStrMap none, none⟩]
        patches := [], cache := bApp.site.clientIDToHeaders } ∧
    (isObjPayload none = false → goUnmarshalStrMap (none : Option JVal) = []) :=
  wave_C9_theorem cFix bApp "/app" none sApp rfl

/-- C10: watch dispatch reads the session without a nil guard: with a nil
session it fails on the multicast subject read when a multicast app is bound
and on the username read when no app is bound, while with a session present
handling a watch always completes; the none result models the panic. -/
theorem wave_C10_theorem :
    (∀ (c : Client) (b : Broker) (a d : String),
        c.session = none → b.getApp a = none → handleWatch c b a d = none) ∧
    (∀ (c : Client) (b : Broker) (a d : String) (app : App),
        c.session = none → b.getApp a = some app → app.mode = AppMode.multicast →
        handleWatch c b a d = none) ∧
    (∀ (c : Client) (b : Broker) (a d : String) (s : Session),
        c.session = some s → (handleWatch c b a d).isSome = true) := by
  refine ⟨?_, ?_, ?_⟩
  · intro c b a d hs ha
    unfold handleWatch
    rw [ha, hs]
  · intro c b a d app hs ha hm
    obtain ⟨mode⟩ := app
    have hm2 : mode = AppMode.multicast := hm
    subst hm2
    unfold handleWatch
    rw [ha, hs]
  · intro c b a d s hs
    cases hApp : b.getApp a with
    | some app =>
        rw [handleWatch_app c b a d s app hs hApp]
        rfl
    | none =>
        unfold handleWatch
        rw [hApp, hs]
        cases hp : b.site.pageAt a with
        | none => rfl
        | some p =>
            obtain ⟨pm⟩ := p
            cases pm <;> rfl

theorem wave_C10_witness :
    handleWatch cNil bNone "/x" "" = none ∧
    handleWatch cNil bMulti "/app" "" = none ∧
    (handleWatch cFix bApp "/app" "").isSome = true :=
  ⟨wave_C10_theorem.1 cNil bNone "/x" "" rfl rfl,
   wave_C10_theorem.2.1 cNil bMulti "/app" "" mApp rfl rfl rfl,
   wave_C10_theorem.2.2 cFix bApp "/app" "" sSession rfl⟩
